import Mathlib

/-!
Verification of the post-catalog query engine, blog-page controller logic and
theme controller of a static client-side blog.

The JavaScript sources are embedded shallowly:

* `Post` mirrors the record literals of the `POSTS` array.  The `date` field,
  an ISO `YYYY-MM-DD` string in the source that the code only ever uses through
  `new Date(...)` subtraction inside sort comparators, is modeled as the number
  `YYYYMMDD : Nat`; for well-formed ISO dates this encoding is strictly
  monotone in the parsed timestamp, so every comparison the code performs is
  preserved.
* `Array.prototype.sort(cmp)` (ES2019 and later) is a stable sort whose output
  is ordered consistently with the comparator.  For the comparators used here
  (`(a, b) => b.key - a.key`, total preorders on a numeric key) the stable
  sorted permutation is unique, so the sort is modeled by `List.mergeSort`
  with the boolean relation "comparator result is not positive", that is,
  `le a b := b.key ≤ a.key`.
* `String.prototype.includes` is modeled as contiguous-subsequence containment
  on the lists of characters, `String.prototype.toLowerCase` by
  `String.toLower`, `String.prototype.trim` by `String.trim`, `===` on strings
  by decidable equality, `Array.prototype.find` by `List.find?` (returning
  `none` for `undefined`), `Array.prototype.slice a b` with in-range indices by
  `drop` then `take`, and a JS `Set` built by insertion followed by
  `Array.from(...).sort()` by first-occurrence deduplication followed by a
  lexicographic sort.
-/

set_option maxHeartbeats 1000000

namespace Blog

/-- Post metadata record, mirroring the object literals stored in `POSTS`
(`js/posts.js`).  The ISO date string is modeled as the Nat `YYYYMMDD`,
order-isomorphic to its parsed timestamp. -/
structure Post where
  id : String
  title : String
  date : Nat
  summary : String
  tags : List String
  content : String
  readingTime : String
deriving DecidableEq, Repr

/-- First catalog entry of `POSTS`. -/
def postMove : Post :=
  { id := "understanding-move-semantics-cpp"
    title := "Understanding Move Semantics in Modern C++"
    date := 20260128
    summary := "A deep dive into move semantics, rvalue references, and how they improve performance in modern C++ applications."
    tags := ["C++", "Performance", "Programming"]
    content := "posts/understanding-move-semantics-cpp.md"
    readingTime := "8 min read" }

/-- Second catalog entry of `POSTS`. -/
def postNeural : Post :=
  { id := "neural-networks-from-scratch"
    title := "Building Neural Networks from Scratch"
    date := 20260120
    summary := "Implementing a neural network using only NumPy to understand the fundamentals of backpropagation and gradient descent."
    tags := ["AI", "Machine Learning", "Python"]
    content := "posts/neural-networks-from-scratch.md"
    readingTime := "12 min read" }

/-- Third catalog entry of `POSTS`. -/
def postShader : Post :=
  { id := "intro-to-shader-programming"
    title := "Introduction to Shader Programming"
    date := 20260115
    summary := "Learn the basics of vertex and fragment shaders, and create your first GPU-accelerated visual effects."
    tags := ["Graphics", "Shaders", "GLSL"]
    content := "posts/intro-to-shader-programming.md"
    readingTime := "10 min read" }

/-- Fourth catalog entry of `POSTS`. -/
def postProb : Post :=
  { id := "probability-theory-ml"
    title := "Probability Theory for Machine Learning"
    date := 20260110
    summary := "Essential probability concepts every ML engineer should know, from Bayes theorem to probability distributions."
    tags := ["Math", "Machine Learning", "Probability"]
    content := "posts/probability-theory-ml.md"
    readingTime := "15 min read" }

/-- Fifth catalog entry of `POSTS`. -/
def postCpp : Post :=
  { id := "modern-cpp-best-practices"
    title := "Modern C++ Best Practices in 2026"
    date := 20260105
    summary := "A comprehensive guide to writing clean, efficient, and maintainable C++ code using C++20 and C++23 features."
    tags := ["C++", "Best Practices", "Software Engineering"]
    content := "posts/modern-cpp-best-practices.md"
    readingTime := "10 min read" }

/-- The fixed catalog `POSTS`. -/
def POSTS : List Post := [postMove, postNeural, postShader, postProb, postCpp]

/-- JS `s.includes(q)`: the characters of `q` occur contiguously in `s`. -/
def jsIncludes (s q : String) : Bool := decide (q.data <:+: s.data)

/-- Boolean form of the `getAllPosts` comparator
`(a, b) => new Date(b.date) - new Date(a.date)`: `a` may precede `b` exactly
when the comparator value is not positive, that is, when `b.date ≤ a.date`. -/
def postLe (a b : Post) : Bool := decide (b.date ≤ a.date)

/-- `getAllPosts()`: `[...POSTS].sort((a, b) => new Date(b.date) - new Date(a.date))`,
a stable sort of a copy of the catalog, newest first.  The catalog is made a
parameter; the source reads the module-level `POSTS` binding. -/
def getAllPosts (posts : List Post) : List Post := posts.mergeSort postLe

/-- `getPostById(id)`: `POSTS.find(post => post.id === id)`; `undefined` is `none`. -/
def getPostById (posts : List Post) (id : String) : Option Post :=
  posts.find? (fun post => post.id == id)

/-- `getRecentPosts(limit)`: `getAllPosts().slice(0, limit)`. -/
def getRecentPosts (posts : List Post) (limit : Nat) : List Post :=
  (getAllPosts posts).take limit

/-- `getPostsByTag(tag)`: the exact string `'all'` short-circuits to
`getAllPosts()`; otherwise filter by a case-insensitive tag match. -/
def getPostsByTag (posts : List Post) (tag : String) : List Post :=
  if tag == "all" then getAllPosts posts
  else (getAllPosts posts).filter
    (fun post => post.tags.any (fun t => t.toLower == tag.toLower))

/-- Boolean form of the default `Array.prototype.sort()` string comparison. -/
def stringLe (a b : String) : Bool := decide (a ≤ b)

/-- `getAllTags()`: insert every tag of every post into a `Set` (insertion
order, first occurrence kept), then `Array.from(tags).sort()`. -/
def getAllTags (posts : List Post) : List String :=
  ((posts.flatMap (fun post => post.tags)).eraseDups).mergeSort stringLe

/-- `searchPosts(query)`: lowercase the query once, then keep the posts whose
lowercased title, summary or some lowercased tag contains it. -/
def searchPosts (posts : List Post) (query : String) : List Post :=
  let lowerQuery := query.toLower
  (getAllPosts posts).filter (fun post =>
    jsIncludes post.title.toLower lowerQuery ||
    jsIncludes post.summary.toLower lowerQuery ||
    post.tags.any (fun tag => jsIncludes tag.toLower lowerQuery))

/-- Boolean form of the related-post comparator `(a, b) => b.score - a.score`. -/
def scoreLe (a b : Post × Nat) : Bool := decide (b.2 ≤ a.2)

/-- The score `getRelatedPosts` computes for a candidate, given the source
post: `p.tags.filter(tag => post.tags.includes(tag)).length`, a case-sensitive
count over the candidate's tag occurrences. -/
def relatedScore (post p : Post) : Nat :=
  (p.tags.filter (fun tag => post.tags.contains tag)).length

/-- The unsorted stage of the `scored` pipeline inside `getRelatedPosts`:
over the catalog, drop the source id, pair every candidate with its shared-tag
score (the JS spread `{...p, score}` builds a fresh object, modeled by the
pair), and drop zero scores. -/
def scoredCandidates (posts : List Post) (postId : String) (post : Post) :
    List (Post × Nat) :=
  ((posts.filter (fun p => p.id != postId)).map
      (fun p => (p, relatedScore post p))).filter
    (fun p => decide (0 < p.2))

/-- `getRelatedPosts(postId, limit)`: resolve the source post (empty result if
unknown), build the scored candidate list, stable-sort it by score descending
(`(a, b) => b.score - a.score`) and take the first `limit`. -/
def getRelatedPosts (posts : List Post) (postId : String) (limit : Nat) :
    List (Post × Nat) :=
  match getPostById posts postId with
  | none => []
  | some post =>
    let scored := (scoredCandidates posts postId post).mergeSort scoreLe
    scored.take limit

/-- `postsPerPage` constant of `blog.js`. -/
def postsPerPage : Nat := 9

/-- JS `array.slice(start, stop)` for in-range nonnegative indices. -/
def jsSlice {α : Type} (l : List α) (start stop : Nat) : List α :=
  (l.drop start).take (stop - start)

/-- The slice `displayPosts` renders: `startIndex = (currentPage - 1) * postsPerPage`,
`endIndex = startIndex + postsPerPage`, `filteredPosts.slice(startIndex, endIndex)`. -/
def postsToShow {α : Type} (filteredPosts : List α) (currentPage : Nat) : List α :=
  let startIndex := (currentPage - 1) * postsPerPage
  let endIndex := startIndex + postsPerPage
  jsSlice filteredPosts startIndex endIndex

/-- `handleSearch(query)` of `blog.js`, as the sequence it leaves in
`filteredPosts`: a query that trims to the empty string falls back to
`filterByTag(currentTag)`, whose `loadPosts` sets
`filteredPosts = getPostsByTag(currentTag)`; any other query sets
`filteredPosts = searchPosts(query)`. -/
def handleSearch (posts : List Post) (currentTag : String) (query : String) :
    List Post :=
  if query.trim == "" then getPostsByTag posts currentTag
  else searchPosts posts query

/-- The two themes of `theme.js`. -/
inductive Theme where
  | light
  | dark
deriving DecidableEq, Repr

/-- Observable state the theme controller interacts with: the persisted
`localStorage` entry for the key `theme`, the document's `data-theme`
attribute (absent before first application), and whether the operating-system
`prefers-color-scheme: dark` media query currently matches. -/
structure ThemeState where
  saved : Option Theme
  applied : Option Theme
  osDark : Bool
deriving DecidableEq, Repr

/-- `getTheme()`: the saved preference when present, else the OS preference,
else light. -/
def getTheme (s : ThemeState) : Theme :=
  match s.saved with
  | some t => t
  | none => if s.osDark then Theme.dark else Theme.light

/-- `applyTheme(theme)`: sets the `data-theme` attribute and writes the theme
to `localStorage` unconditionally. -/
def applyTheme (s : ThemeState) (t : Theme) : ThemeState :=
  { s with applied := some t, saved := some t }

/-- The discrete events the theme controller reacts to: the `DOMContentLoaded`
initialization, a user click on the toggle button, and an operating-system
color-scheme change delivering the new `matches` value. -/
inductive ThemeEvent where
  | domLoaded
  | toggle
  | osChange (dark : Bool)
deriving DecidableEq, Repr

/-- One step of the theme controller.  `domLoaded` runs
`applyTheme(getTheme())`.  `toggle` reads the `data-theme` attribute and
applies the opposite theme (a missing attribute is not `'dark'`, so it flips
to dark).  An OS change event first updates the media-query state, then
applies the matching theme only when `localStorage` has no entry. -/
def themeStep (s : ThemeState) : ThemeEvent → ThemeState
  | ThemeEvent.domLoaded => applyTheme s (getTheme s)
  | ThemeEvent.toggle =>
      applyTheme s (if s.applied = some Theme.dark then Theme.light else Theme.dark)
  | ThemeEvent.osChange dark =>
      let s1 : ThemeState := { s with osDark := dark }
      if s1.saved = none then
        applyTheme s1 (if dark then Theme.dark else Theme.light)
      else s1

/-- Run the theme controller over a sequence of events. -/
def themeRun (s : ThemeState) (evs : List ThemeEvent) : ThemeState :=
  evs.foldl themeStep s

/-!
Heap-level views of the Query Engine operations, for the frame/purity claim.
Each `...St` function returns the operation's result together with the
`POSTS` binding as the call leaves it.  In the source, `getAllPosts` applies
the in-place `.sort` to the fresh spread copy `[...POSTS]`, never to `POSTS`;
`getRelatedPosts` maps candidates to fresh `{...p, score}` objects before
filtering and sorting; every other operation only reads.  Hence every
operation leaves the catalog exactly as it found it.
-/

/-- Stateful view of `getAllPosts`: the sort runs on the spread copy. -/
def getAllPostsSt (posts : List Post) : List Post × List Post :=
  (posts.mergeSort postLe, posts)

/-- Stateful view of `getPostById`: a pure scan. -/
def getPostByIdSt (posts : List Post) (id : String) :
    Option Post × List Post :=
  (posts.find? (fun post => post.id == id), posts)

/-- Stateful view of `getRecentPosts`: slices the fresh array `getAllPosts`
returned. -/
def getRecentPostsSt (posts : List Post) (limit : Nat) :
    List Post × List Post :=
  ((getAllPostsSt posts).1.take limit, (getAllPostsSt posts).2)

/-- Stateful view of `getPostsByTag`: filters the fresh array `getAllPosts`
returned. -/
def getPostsByTagSt (posts : List Post) (tag : String) :
    List Post × List Post :=
  (getPostsByTag posts tag, posts)

/-- Stateful view of `getAllTags`: builds a new `Set` and a new array. -/
def getAllTagsSt (posts : List Post) : List String × List Post :=
  (getAllTags posts, posts)

/-- Stateful view of `searchPosts`: filters the fresh array `getAllPosts`
returned. -/
def searchPostsSt (posts : List Post) (query : String) :
    List Post × List Post :=
  (searchPosts posts query, posts)

/-- Stateful view of `getRelatedPosts`: the sort runs on the fresh array the
`filter`/`map`/`filter` chain produced, whose elements are fresh objects. -/
def getRelatedPostsSt (posts : List Post) (postId : String) (limit : Nat) :
    List (Post × Nat) × List Post :=
  (getRelatedPosts posts postId limit, posts)

/-!
Small concrete catalogs used to separate behaviors the universal statements
cannot distinguish.  Each is listed newest-first, as the shipped catalog is.
-/

/-- A post that carries the literal tag `all`. -/
def postTaggedAll : Post :=
  { id := "a1", title := "A", date := 20260120, summary := "sa"
    tags := ["all", "x"], content := "a.md", readingTime := "1 min read" }

/-- A post without the tag `all`. -/
def postTaggedY : Post :=
  { id := "b1", title := "B", date := 20260110, summary := "sb"
    tags := ["y"], content := "b.md", readingTime := "1 min read" }

/-- Catalog in which one post carries the literal tag `all`. -/
def allCatalog : List Post := [postTaggedAll, postTaggedY]

/-- Source post for the related-post tie-break counterexample. -/
def relSrc : Post :=
  { id := "s", title := "S", date := 20260110, summary := "ss"
    tags := ["T"], content := "s.md", readingTime := "1 min read" }

/-- Older candidate sharing one tag with `relSrc`, listed first in the catalog. -/
def relOld : Post :=
  { id := "p1", title := "P1", date := 20260101, summary := "s1"
    tags := ["T"], content := "p1.md", readingTime := "1 min read" }

/-- Newer candidate sharing one tag with `relSrc`, listed last in the catalog. -/
def relNew : Post :=
  { id := "p2", title := "P2", date := 20260120, summary := "s2"
    tags := ["T"], content := "p2.md", readingTime := "1 min read" }

/-- Catalog whose order is not newest-first: both candidates tie on score and
the older one precedes the newer one. -/
def relCatalog : List Post := [relSrc, relOld, relNew]

/-- Source post tagged `C++` for the score case-sensitivity analysis. -/
def csSrc : Post :=
  { id := "s10", title := "S10", date := 20260130, summary := "s"
    tags := ["C++"], content := "s10.md", readingTime := "1 min read" }

/-- Candidate whose only tag differs from the source tag in letter case. -/
def csLower : Post :=
  { id := "lower10", title := "L10", date := 20260120, summary := "s"
    tags := ["c++"], content := "lower10.md", readingTime := "1 min read" }

/-- Candidate repeating the source tag twice in its tag list. -/
def csDup : Post :=
  { id := "dup10", title := "D10", date := 20260110, summary := "s"
    tags := ["C++", "C++"], content := "dup10.md", readingTime := "1 min read" }

/-- Catalog exercising case-sensitive, per-occurrence scoring. -/
def csCatalog : List Post := [csSrc, csLower, csDup]

unseal List.merge List.mergeSort String.mapAux Substring.takeWhileAux Substring.takeRightWhileAux

/-! Comparator facts: both sort relations are total preorders. -/

/-- The date comparator relation is transitive. -/
theorem postLe_trans (a b c : Post) (h1 : postLe a b) (h2 : postLe b c) :
    postLe a c := by
  simp only [postLe, decide_eq_true_eq] at h1 h2 ⊢
  omega

/-- The date comparator relation is total. -/
theorem postLe_total (a b : Post) : postLe a b || postLe b a := by
  simp only [postLe, Bool.or_eq_true, decide_eq_true_eq]
  omega

/-- The score comparator relation is transitive. -/
theorem scoreLe_trans (a b c : Post × Nat) (h1 : scoreLe a b) (h2 : scoreLe b c) :
    scoreLe a c := by
  simp only [scoreLe, decide_eq_true_eq] at h1 h2 ⊢
  omega

/-- The score comparator relation is total. -/
theorem scoreLe_total (a b : Post × Nat) : scoreLe a b || scoreLe b a := by
  simp only [scoreLe, Bool.or_eq_true, decide_eq_true_eq]
  omega

/-- Stability of the modeled `Array.prototype.sort`: a class of elements that
are pairwise tied under the comparator comes out of the sort exactly as it
went in. -/
theorem mergeSort_filter_eq {α : Type} {le : α → α → Bool}
    (htrans : ∀ a b c : α, le a b → le b c → le a c)
    (htotal : ∀ a b : α, le a b || le b a)
    (p : α → Bool) (l : List α)
    (hp : ∀ a b : α, p a = true → p b = true → le a b = true) :
    (l.mergeSort le).filter p = l.filter p := by
  have hpw : (l.filter p).Pairwise (fun a b => le a b = true) :=
    List.pairwise_of_forall_mem_list
      (fun a ha b hb => hp a b (List.of_mem_filter ha) (List.of_mem_filter hb))
  have hsub : List.Sublist (l.filter p) (l.mergeSort le) :=
    List.sublist_mergeSort htrans htotal hpw (List.filter_sublist l)
  have hself : (l.filter p).filter p = l.filter p :=
    List.filter_eq_self.mpr (fun a ha => List.of_mem_filter ha)
  have hsub2 := hsub.filter p
  rw [hself] at hsub2
  have hlen : (l.filter p).length = ((l.mergeSort le).filter p).length :=
    (((List.mergeSort_perm l le).filter p).length_eq).symm
  exact (hsub2.eq_of_length hlen).symm

/-- `getAllPosts` permutes the catalog. -/
theorem getAllPosts_perm (C : List Post) : List.Perm (getAllPosts C) C :=
  List.mergeSort_perm C postLe

/-- Membership in `getAllPosts` is membership in the catalog. -/
theorem mem_getAllPosts {C : List Post} {p : Post} :
    p ∈ getAllPosts C ↔ p ∈ C :=
  List.mem_mergeSort

/-- `getAllPosts` is sorted by date descending. -/
theorem getAllPosts_pairwise (C : List Post) :
    (getAllPosts C).Pairwise (fun a b => b.date ≤ a.date) :=
  (List.sorted_mergeSort postLe_trans postLe_total C).imp
    (fun h => by simpa [postLe] using h)

/-- `getAllPosts` keeps the catalog order of the posts carrying any fixed
date. -/
theorem getAllPosts_stable (C : List Post) (d : Nat) :
    (getAllPosts C).filter (fun p => p.date == d) =
      C.filter (fun p => p.date == d) :=
  mergeSort_filter_eq postLe_trans postLe_total _ C
    (fun a b ha hb => by
      simp only [beq_iff_eq] at ha hb
      simp [postLe, ha, hb])

/-- C4: for every catalog, `getAllPosts` is a permutation of the catalog,
sorted by date descending, and the sort is stable — the posts carrying any
fixed date appear in the output in the same relative order as in the
catalog. -/
theorem getAllPosts_sorted_stable (C : List Post) :
    List.Perm (getAllPosts C) C ∧
    (getAllPosts C).Pairwise (fun a b => b.date ≤ a.date) ∧
    ∀ d : Nat, (getAllPosts C).filter (fun p => p.date == d) =
      C.filter (fun p => p.date == d) :=
  ⟨getAllPosts_perm C, getAllPosts_pairwise C, getAllPosts_stable C⟩

/-- For a non-sentinel argument, `getPostsByTag` is the case-insensitive tag
filter over the sorted listing. -/
theorem getPostsByTag_eq_filter (C : List Post) (t : String) (ht : t ≠ "all") :
    getPostsByTag C t = (getAllPosts C).filter
      (fun post => post.tags.any (fun s => s.toLower == t.toLower)) := by
  have hb : (t == "all") = false := beq_eq_false_iff_ne.mpr ht
  simp [getPostsByTag, hb]

/-- Membership in a non-sentinel `getPostsByTag` result: exactly the catalog
posts carrying a case-insensitively matching tag. -/
theorem mem_getPostsByTag (C : List Post) (t : String) (ht : t ≠ "all")
    (p : Post) :
    p ∈ getPostsByTag C t ↔
      p ∈ C ∧ ∃ s, s ∈ p.tags ∧ s.toLower = t.toLower := by
  rw [getPostsByTag_eq_filter C t ht]
  simp only [List.mem_filter, mem_getAllPosts, List.any_eq_true, beq_iff_eq]

/-- Every `getPostsByTag` result is sorted newest-first. -/
theorem getPostsByTag_pairwise (C : List Post) (t : String) :
    (getPostsByTag C t).Pairwise (fun a b => b.date ≤ a.date) := by
  by_cases ht : t = "all"
  · subst ht
    simpa [getPostsByTag] using getAllPosts_pairwise C
  · rw [getPostsByTag_eq_filter C t ht]
    exact (getAllPosts_pairwise C).filter _

/-- A non-sentinel `getPostsByTag` result keeps the newest-first listing's
order (it is a sublist of it). -/
theorem getPostsByTag_sublist (C : List Post) (t : String) (ht : t ≠ "all") :
    List.Sublist (getPostsByTag C t) (getAllPosts C) := by
  rw [getPostsByTag_eq_filter C t ht]
  exact List.filter_sublist (getAllPosts C)

/-- C5: for every catalog, filtering by the sentinel `all` is the full
newest-first listing, and filtering by an ordinary tag token returns exactly
the posts carrying a case-insensitively matching tag, in newest-first order
(a sublist of the newest-first listing, sorted by date descending). -/
theorem getPostsByTag_spec (C : List Post) (t : String) (ht : t ≠ "all") :
    getPostsByTag C "all" = getAllPosts C ∧
    (∀ p, p ∈ getPostsByTag C t ↔
      p ∈ C ∧ ∃ s, s ∈ p.tags ∧ s.toLower = t.toLower) ∧
    List.Sublist (getPostsByTag C t) (getAllPosts C) ∧
    (getPostsByTag C t).Pairwise (fun a b => b.date ≤ a.date) :=
  ⟨by simp [getPostsByTag], mem_getPostsByTag C t ht,
    getPostsByTag_sublist C t ht, getPostsByTag_pairwise C t⟩

/-- C5 witness at a concrete input: filtering the shipped catalog by the token
written in lowercase keeps the newest-first order. -/
theorem getPostsByTag_spec_witness :
    List.Sublist (getPostsByTag POSTS "c++") (getAllPosts POSTS) :=
  (getPostsByTag_spec POSTS "c++" (by decide)).2.2.1

/-- C9: only the exact lowercase string `all` is the return-everything
sentinel — every other argument, however capitalized, selects the posts with
a case-insensitively matching tag — and on a catalog where a post carries the
literal tag `all`, `getPostsByTag "all"` still returns the whole catalog
rather than only the posts tagged `all`. -/
theorem getPostsByTag_sentinel_spec (C : List Post) (t : String)
    (ht : t ≠ "all") :
    (∀ p, p ∈ getPostsByTag C t ↔
      p ∈ C ∧ ∃ s, s ∈ p.tags ∧ s.toLower = t.toLower) ∧
    (getPostsByTag C t).Pairwise (fun a b => b.date ≤ a.date) ∧
    getPostsByTag allCatalog "all" = allCatalog ∧
    allCatalog.filter (fun p => p.tags.contains "all") = [postTaggedAll] ∧
    postTaggedY ∈ getPostsByTag allCatalog "all" := by
  refine ⟨mem_getPostsByTag C t ht, getPostsByTag_pairwise C t, ?_, ?_, ?_⟩
  · decide
  · decide
  · decide

/-- C9 witness at a concrete input: the differently-capitalized token `All`
is not the sentinel, and the sentinel ignores the literal tag `all`. -/
theorem getPostsByTag_sentinel_spec_witness :
    getPostsByTag allCatalog "all" = allCatalog :=
  (getPostsByTag_sentinel_spec POSTS "All" (by decide)).2.2.1

/-- C6: on a catalog with unique ids, `getPostById` returns the unique record
with the requested id when one exists, and returns `none` (the explicit
absence signal, JS `undefined`) exactly when no record has the id. -/
theorem getPostById_spec (C : List Post) (i : String)
    (hids : (C.map Post.id).Nodup) :
    (∀ p : Post, getPostById C i = some p ↔ p ∈ C ∧ p.id = i) ∧
    (getPostById C i = none ↔ ∀ p ∈ C, p.id ≠ i) := by
  constructor
  · intro p
    constructor
    · intro h
      exact ⟨List.mem_of_find?_eq_some h,
        by simpa using List.find?_some h⟩
    · rintro ⟨hmem, hid⟩
      cases hfind : getPostById C i with
      | none =>
        rw [getPostById, List.find?_eq_none] at hfind
        exact absurd hid (by simpa using hfind p hmem)
      | some q =>
        have hqmem := List.mem_of_find?_eq_some hfind
        have hqid : q.id = i := by simpa using List.find?_some hfind
        have heq : q = p :=
          List.inj_on_of_nodup_map hids hqmem hmem (by rw [hqid, hid])
        rw [heq]
  · rw [getPostById, List.find?_eq_none]
    simp

/-- C6 witness at a concrete input: on the shipped catalog (whose ids are
pairwise distinct) the lookup of the fourth post's id finds exactly that
record. -/
theorem getPostById_spec_witness :
    getPostById POSTS "probability-theory-ml" = some postProb ↔
      postProb ∈ POSTS ∧ postProb.id = "probability-theory-ml" :=
  (getPostById_spec POSTS "probability-theory-ml" (by decide)).1 postProb

/-- C7: for every already-ordered sequence and 1-based page number, the
rendered page is the contiguous slice of 0-indexed positions
`(page - 1) * 9` through `page * 9 - 1`: it has `min 9 (rest)` entries, its
`i`-th entry is the sequence's `(page - 1) * 9 + i`-th entry, and page 2 of a
20-item sequence is exactly the items at positions 9 through 17. -/
theorem displayPosts_slice_spec {α : Type} (l : List α) (p i : Nat)
    (hp : 1 ≤ p) (hi : i < postsPerPage) :
    (postsToShow l p).length =
      min postsPerPage (l.length - (p - 1) * postsPerPage) ∧
    (postsToShow l p)[i]? = l[(p - 1) * postsPerPage + i]? ∧
    postsToShow (List.range 20) 2 = [9, 10, 11, 12, 13, 14, 15, 16, 17] := by
  refine ⟨?_, ?_, by decide⟩
  · simp [postsToShow, jsSlice]
  · simp only [postsToShow, jsSlice, Nat.add_sub_cancel_left]
    rw [List.getElem?_take_of_lt hi, List.getElem?_drop]

/-- C7 witness at a concrete input: page 2 of a 20-item sequence starts at
0-indexed position 9. -/
theorem displayPosts_slice_spec_witness :
    (postsToShow (List.range 20) 2)[0]? = (List.range 20)[9]? := by
  have h := (displayPosts_slice_spec (List.range 20) 2 0 (by decide)
    (by decide)).2.1
  simpa using h

/-- C8: every Query Engine operation returns the catalog binding unchanged
(the sorts run on the spread copy or on freshly built arrays of fresh
objects), and running any operation a second time with the same arguments on
the state the first call left behind returns the same result. -/
theorem queryEngine_frame_deterministic (C : List Post) (i t q : String)
    (k : Nat) :
    ((getAllPostsSt C).2 = C ∧
      (getAllPostsSt (getAllPostsSt C).2).1 = (getAllPostsSt C).1) ∧
    ((getPostByIdSt C i).2 = C ∧
      (getPostByIdSt (getPostByIdSt C i).2 i).1 = (getPostByIdSt C i).1) ∧
    ((getRecentPostsSt C k).2 = C ∧
      (getRecentPostsSt (getRecentPostsSt C k).2 k).1 =
        (getRecentPostsSt C k).1) ∧
    ((getPostsByTagSt C t).2 = C ∧
      (getPostsByTagSt (getPostsByTagSt C t).2 t).1 =
        (getPostsByTagSt C t).1) ∧
    ((getAllTagsSt C).2 = C ∧
      (getAllTagsSt (getAllTagsSt C).2).1 = (getAllTagsSt C).1) ∧
    ((searchPostsSt C q).2 = C ∧
      (searchPostsSt (searchPostsSt C q).2 q).1 = (searchPostsSt C q).1) ∧
    ((getRelatedPostsSt C i k).2 = C ∧
      (getRelatedPostsSt (getRelatedPostsSt C i k).2 i k).1 =
        (getRelatedPostsSt C i k).1) :=
  ⟨⟨rfl, rfl⟩, ⟨rfl, rfl⟩, ⟨rfl, rfl⟩, ⟨rfl, rfl⟩, ⟨rfl, rfl⟩, ⟨rfl, rfl⟩,
    ⟨rfl, rfl⟩⟩

/-- `getRelatedPosts` on an unknown id is empty. -/
theorem getRelatedPosts_none {C : List Post} {i : String} {k : Nat}
    (h : getPostById C i = none) : getRelatedPosts C i k = [] := by
  simp [getRelatedPosts, h]

/-- `getRelatedPosts` on a resolved id is the sorted scored pipeline cut to
the limit. -/
theorem getRelatedPosts_some {C : List Post} {i : String} {k : Nat}
    {src : Post} (h : getPostById C i = some src) :
    getRelatedPosts C i k =
      ((scoredCandidates C i src).mergeSort scoreLe).take k := by
  simp [getRelatedPosts, h]

/-- Membership in the scored pipeline: catalog posts other than the source
id, paired with their positive shared-tag score. -/
theorem mem_scoredCandidates {C : List Post} {i : String} {src : Post}
    {x : Post × Nat} :
    x ∈ scoredCandidates C i src ↔
      x.1 ∈ C ∧ x.1.id ≠ i ∧ x.2 = relatedScore src x.1 ∧ 0 < x.2 := by
  simp only [scoredCandidates, List.mem_filter, List.mem_map,
    decide_eq_true_eq, bne_iff_ne]
  constructor
  · rintro ⟨⟨p, ⟨hpf, rfl⟩⟩, hpos⟩
    exact ⟨hpf.1, hpf.2, rfl, hpos⟩
  · rintro ⟨h1, h2, h3, h4⟩
    refine ⟨⟨x.1, ?_, ?_⟩, h4⟩
    · exact ⟨h1, h2⟩
    · cases x with
      | mk a n =>
        simp only at h3
        rw [h3]

/-- A positive shared-tag score means some candidate tag occurs, with exactly
the same spelling, among the source tags. -/
theorem relatedScore_pos_iff {src p : Post} :
    0 < relatedScore src p ↔ ∃ s, s ∈ p.tags ∧ s ∈ src.tags := by
  simp only [relatedScore, List.length_pos_iff_exists_mem, List.mem_filter]
  constructor
  · rintro ⟨s, hs, hc⟩
    exact ⟨s, hs, by simpa [List.elem_iff] using hc⟩
  · rintro ⟨s, hs, hc⟩
    exact ⟨s, hs, by simpa [List.elem_iff] using hc⟩

/-- Amended C1: for every catalog, id and limit, `getRelatedPosts` is empty
on an unknown id; otherwise it contains only catalog posts whose id differs
from the source id and whose shared-tag score is positive (some tag is
spelled identically in both posts), returns at most `limit` entries, is
sorted by score descending, and breaks score ties by the candidates' original
catalog order (the stable sort keeps every equal-score class in pipeline
order); the result is the score-sorted pipeline cut to the limit. -/
theorem getRelatedPosts_spec (C : List Post) (i : String) (k : Nat) :
    (getPostById C i = none → getRelatedPosts C i k = []) ∧
    ∀ src, getPostById C i = some src →
      (∀ x ∈ getRelatedPosts C i k,
        x.1 ∈ C ∧ x.1.id ≠ i ∧ x.2 = relatedScore src x.1 ∧ 0 < x.2 ∧
        ∃ s, s ∈ x.1.tags ∧ s ∈ src.tags) ∧
      (getRelatedPosts C i k).length ≤ k ∧
      (getRelatedPosts C i k).Pairwise (fun a b => b.2 ≤ a.2) ∧
      (∀ n : Nat,
        ((scoredCandidates C i src).mergeSort scoreLe).filter
            (fun x => x.2 == n) =
          (scoredCandidates C i src).filter (fun x => x.2 == n)) ∧
      getRelatedPosts C i k =
        ((scoredCandidates C i src).mergeSort scoreLe).take k := by
  refine ⟨fun h => getRelatedPosts_none h, fun src hsrc => ?_⟩
  have hk := getRelatedPosts_some (k := k) hsrc
  refine ⟨?_, ?_, ?_, ?_, hk⟩
  · intro x hx
    rw [hk] at hx
    have hx2 : x ∈ scoredCandidates C i src :=
      List.mem_mergeSort.mp (List.mem_of_mem_take hx)
    obtain ⟨h1, h2, h3, h4⟩ := mem_scoredCandidates.mp hx2
    refine ⟨h1, h2, h3, h4, ?_⟩
    rw [h3] at h4
    exact relatedScore_pos_iff.mp h4
  · rw [hk]
    exact List.length_take_le k _
  · rw [hk]
    refine List.Pairwise.sublist (List.take_sublist k _) ?_
    exact (List.sorted_mergeSort scoreLe_trans scoreLe_total _).imp
      (fun h => by simpa [scoreLe] using h)
  · intro n
    exact mergeSort_filter_eq scoreLe_trans scoreLe_total _ _
      (fun a b ha hb => by
        simp only [beq_iff_eq] at ha hb
        simp [scoreLe, ha, hb])

/-- C1 witness at a concrete input: on the shipped catalog with the C++
post as source, the engine returns at most 3 related posts. -/
theorem getRelatedPosts_spec_witness :
    (getRelatedPosts POSTS "understanding-move-semantics-cpp" 3).length ≤ 3 :=
  ((getRelatedPosts_spec POSTS "understanding-move-semantics-cpp" 3).2
    postMove (by decide)).2.1

/-- C1 counterexample: on a catalog that is not listed newest-first, the two
equal-score candidates come back in catalog order with the older post first,
so the output is not sorted by score descending with ties broken by date
descending, contrary to the claim. -/
theorem getRelatedPosts_dateTieBreak_cex :
    (getRelatedPosts relCatalog "s" 3).map
        (fun x => (x.1.id, x.1.date, x.2)) =
      [("p1", 20260101, 1), ("p2", 20260120, 1)] ∧
    ¬ (getRelatedPosts relCatalog "s" 3).Pairwise
        (fun a b => b.2 < a.2 ∨ (a.2 = b.2 ∧ b.1.date ≤ a.1.date)) := by
  constructor
  · decide
  · decide

/-- C10: the score `getRelatedPosts` attaches to a candidate counts, over the
occurrences in the candidate's tag list, the tags spelled exactly like some
source tag; concretely, a candidate whose only tag differs from the source
tag just in letter case scores 0 and is excluded (even though the
case-insensitive `getPostsByTag` does match it), while a candidate repeating
the source tag twice scores 2, once per occurrence. -/
theorem relatedScore_caseSensitive_spec (C : List Post) (i : String)
    (k : Nat) (src : Post) (hsrc : getPostById C i = some src) :
    (∀ x ∈ getRelatedPosts C i k,
      x.2 = x.1.tags.countP (fun s => src.tags.contains s)) ∧
    (getRelatedPosts csCatalog "s10" 3).map (fun x => (x.1.id, x.2)) =
      [("dup10", 2)] ∧
    ((getRelatedPosts csCatalog "s10" 3).map (fun x => x.1.id)).contains
      "lower10" = false ∧
    csLower ∈ getPostsByTag csCatalog "C++" ∧
    relatedScore csSrc csLower = 0 ∧
    relatedScore csSrc csDup = 2 := by
  refine ⟨?_, by decide, by decide, by decide, by decide, by decide⟩
  intro x hx
  rw [getRelatedPosts_some hsrc] at hx
  have hx2 :=
    mem_scoredCandidates.mp (List.mem_mergeSort.mp (List.mem_of_mem_take hx))
  rw [hx2.2.2.1, relatedScore, List.countP_eq_length_filter]

/-- C10 witness at a concrete input: the duplicated exactly-matching tag
scores 2, the case-differing tag scores 0 and its post is dropped. -/
theorem relatedScore_caseSensitive_spec_witness :
    (getRelatedPosts csCatalog "s10" 3).map (fun x => (x.1.id, x.2)) =
      [("dup10", 2)] :=
  (relatedScore_caseSensitive_spec csCatalog "s10" 3 csSrc (by decide)).2.1

/-- Amended C3: a query that trims to whitespace-only behaves as filtering by
the currently selected tag, which is the unfiltered newest-first listing
exactly when that tag is the sentinel `all`; a query with non-whitespace
content returns exactly the catalog posts whose lowercased title, summary or
some lowercased tag contains the lowercased query, in newest-first order. -/
theorem handleSearch_spec (C : List Post) (tag q : String) :
    (q.trim = "" → handleSearch C tag q = getPostsByTag C tag) ∧
    (q.trim = "" → tag = "all" → handleSearch C tag q = getAllPosts C) ∧
    (q.trim ≠ "" →
      (∀ p, p ∈ handleSearch C tag q ↔ p ∈ C ∧
        (jsIncludes p.title.toLower q.toLower = true ∨
         jsIncludes p.summary.toLower q.toLower = true ∨
         ∃ s, s ∈ p.tags ∧ jsIncludes s.toLower q.toLower = true)) ∧
      List.Sublist (handleSearch C tag q) (getAllPosts C) ∧
      (handleSearch C tag q).Pairwise (fun a b => b.date ≤ a.date)) := by
  refine ⟨?_, ?_, ?_⟩
  · intro h
    simp [handleSearch, h]
  · intro h htag
    subst htag
    simp [handleSearch, h, getPostsByTag]
  · intro h
    have hb : (q.trim == "") = false := beq_eq_false_iff_ne.mpr h
    have hs : handleSearch C tag q = searchPosts C q := by
      simp [handleSearch, hb]
    refine ⟨?_, ?_, ?_⟩
    · intro p
      rw [hs]
      simp only [searchPosts, List.mem_filter, mem_getAllPosts,
        Bool.or_eq_true, List.any_eq_true, or_assoc]
    · rw [hs]
      exact List.filter_sublist (getAllPosts C)
    · rw [hs]
      exact (getAllPosts_pairwise C).filter _

/-- C3 witness at a concrete input: with the sentinel tag selected, clearing
the query falls back to the tag filter. -/
theorem handleSearch_spec_witness :
    handleSearch POSTS "all" "" = getPostsByTag POSTS "all" :=
  (handleSearch_spec POSTS "all" "").1 (by decide)

/-- C3 counterexample: with the tag `C++` selected, the empty query returns
the two C++ posts, not the unfiltered five-post newest-first listing the
claim demands. -/
theorem handleSearch_emptyQuery_cex :
    handleSearch POSTS "C++" "" = [postMove, postCpp] ∧
    getAllPosts POSTS = POSTS ∧
    handleSearch POSTS "C++" "" ≠ getAllPosts POSTS := by
  refine ⟨by decide, by decide, by decide⟩

/-- C2: evaluation of the theme controller on the trace the claim quantifies
over.  Start with no persisted preference and a light OS scheme; the page
loads (the controller applies and, crucially, persists the OS-derived light
theme); then the OS switches to dark.  The user never pressed the toggle,
yet the applied theme stays light instead of following the OS to dark: the
`localStorage` guard in the change listener sees the entry the initial
`applyTheme` wrote. -/
theorem themeOsChange_ignored_after_load :
    ThemeEvent.toggle ∉ [ThemeEvent.domLoaded, ThemeEvent.osChange true] ∧
    (themeRun ⟨none, none, false⟩
        [ThemeEvent.domLoaded, ThemeEvent.osChange true]).osDark = true ∧
    (themeRun ⟨none, none, false⟩
        [ThemeEvent.domLoaded, ThemeEvent.osChange true]).applied =
      some Theme.light ∧
    (themeRun ⟨none, none, false⟩
        [ThemeEvent.domLoaded, ThemeEvent.osChange true]).applied ≠
      some Theme.dark := by
  refine ⟨by decide, by decide, by decide, by decide⟩

end Blog

